import Mathlib

/-!
Shallow embedding of the scraping core of the repository
(`src/models/lolalytics_parser.py`, `src/helpers/playwright_browser.py`,
`src/models/opgg_parser.py`) together with theorems settling the frozen
claims about it.

Conventions of the embedding:
* Python values flowing through the field mapper are modelled by `PyVal`
  (either Python `None`, a string, or a float modelled as a rational).
* Python exceptions are modelled by `Except PyErr`; a `try/except` block
  that returns a default becomes a `match` on the `Except` value.
* DOM access is modelled by an `Elem` record: `query sel` answers what
  `query_selector(sel)` followed by `text_content()` would return
  (`none` = element absent, `some none` = element present but
  `text_content()` is `None`, `some (some t)` = text `t`), and
  `anchorHref` answers `query_selector("a")` / `get_attribute("href")`
  the same way.
* The unbounded `while True:` extraction loop is modelled with explicit
  fuel: the fuel-indexed function returns `some` final state when the
  loop broke within the given number of iterations and `none` when, after
  that many iterations, the loop is still running.
-/

inductive PyErr where
  | attributeError
  | indexError
  | valueError
  | timeoutError
deriving DecidableEq

inductive PyVal where
  | vNone
  | vStr (s : String)
  | vNum (q : ℚ)
deriving DecidableEq

def optStrToVal : Option String → PyVal
  | none => PyVal.vNone
  | some s => PyVal.vStr s

def optNumToVal : Option ℚ → PyVal
  | none => PyVal.vNone
  | some q => PyVal.vNum q

/-- A DOM element as the extraction code observes it. -/
structure Elem where
  query : String → Option (Option String)
  anchorHref : Option (Option String)

/-- One entry of a per-site field table: `(locator, value kind, transform)`
exactly as the Python tuples `(selector, value_type, transform)`; a
transform may raise, hence `Except`. -/
structure FieldSpec where
  selector : Option String
  value_type : Option String
  transform : Option (PyVal → Except PyErr PyVal)

/-- Python `str.strip()`: whitespace removed from both ends. -/
def pyStrip (s : String) : String :=
  ⟨((s.data.dropWhile Char.isWhitespace).reverse.dropWhile Char.isWhitespace).reverse⟩

/-- Splitting a character list at every occurrence of a separator. -/
def splitChars (sep : Char) : List Char → List (List Char)
  | [] => [[]]
  | c :: cs =>
    let rest := splitChars sep cs
    if c = sep then [] :: rest
    else
      match rest with
      | [] => [[c]]
      | r :: rs => (c :: r) :: rs

/-- Python `s.split(sep)` for a one-character separator: every maximal
(possibly empty) run between separators, in order. -/
def pySplit (s : String) (sep : Char) : List String :=
  (splitChars sep s.data).map (fun l => ⟨l⟩)

/-- `PlaywrightBrowser.extract_text`: query the selector under the parent
element, strip the text; any fault (element absent, `text_content()`
returning `None` so that `.strip()` raises) is caught and yields `None`. -/
def extract_text (e : Elem) (sel : String) : Option String :=
  match e.query sel with
  | none => none
  | some none => none
  | some (some t) => some (pyStrip t)

def digitsToNat (l : List Char) : ℕ :=
  l.foldl (fun a c => a * 10 + (c.toNat - 48)) 0

def fracToRat (ds : List Char) : ℚ :=
  (digitsToNat ds : ℚ) / ((10 : ℚ) ^ ds.length)

/-- Python `float(s)` restricted to strings over the alphabet of ASCII
digits, `.` and `-` (the only characters `extract_number` can feed it):
an optional leading `-`, then either digits with an optional fraction or
a bare fraction; anything else raises `ValueError`, modelled as `none`. -/
def parseFloatResidue (s : String) : Option ℚ :=
  let cs := s.data
  let negBody : Bool × List Char :=
    match cs with
    | '-' :: r => (true, r)
    | _ => (false, cs)
  let neg := negBody.1
  let body := negBody.2
  if body.any (fun c => c = '-') then none
  else
    let ip := body.takeWhile (fun c => c ≠ '.')
    let rest := body.dropWhile (fun c => c ≠ '.')
    let core : Option ℚ :=
      match rest with
      | [] => if ip ≠ [] ∧ ip.all Char.isDigit then some (digitsToNat ip : ℚ) else none
      | _ :: fp =>
        if fp.any (fun c => c = '.') then none
        else if ip = [] ∧ fp = [] then none
        else if ip.all Char.isDigit ∧ fp.all Char.isDigit then
          some ((digitsToNat ip : ℚ) + fracToRat fp)
        else none
    core.map (fun q => if neg then -q else q)

/-- The character filter of `extract_number`:
`''.join(c for c in text if c.isdigit() or c in '.-')`. -/
def cleanNumber (t : String) : String :=
  ⟨t.data.filter (fun c => c.isDigit || c = '.' || c = '-')⟩

/-- `PlaywrightBrowser.extract_number`: take the extracted text; if it is
truthy, keep only digit, `.` and `-` characters and parse as a float,
`None` on empty residue; a `ValueError` from `float` is caught by the
surrounding `try` and also yields `None`. -/
def extract_number (e : Elem) (sel : String) : Option ℚ :=
  match extract_text e sel with
  | none => none
  | some t =>
    if t = "" then none
    else
      let cleaned := cleanNumber t
      if cleaned = "" then none
      else parseFloatResidue cleaned

/-- Resolution of one field inside `LolalyticsParser.parse_element`.
Mirrors the Python exactly: a falsy selector takes the first branch
(transform applied to `None`, if any); `"text"` and `"number"` kinds call
the browser helpers; any other kind raises `ValueError`; finally, the
trailing `if transform: value = transform(value)` is applied
unconditionally — also after the falsy-selector branch. -/
def resolveField (e : Elem) (fs : FieldSpec) : Except PyErr PyVal := do
  let value ←
    if fs.selector.getD "" = "" then
      match fs.transform with
      | some t => t PyVal.vNone
      | none => pure PyVal.vNone
    else if fs.value_type = some "text" then
      pure (optStrToVal (extract_text e (fs.selector.getD "")))
    else if fs.value_type = some "number" then
      pure (optNumToVal (extract_number e (fs.selector.getD "")))
    else
      Except.error PyErr.valueError
  match fs.transform with
  | some t => t value
  | none => pure value

/-- The `for field_name, (selector, value_type, transform) in fields.items():`
loop of `parse_element`: fields are resolved left to right and the first
fault aborts the loop. -/
def resolveFields (e : Elem) : List (String × FieldSpec) → Except PyErr (List (String × PyVal))
  | [] => Except.ok []
  | f :: fs => do
    let v ← resolveField e f.2
    let rest ← resolveFields e fs
    Except.ok ((f.1, v) :: rest)

/-- `LolalyticsParser.parse_element`: resolve every field of the table in
order inside one `try`; the first fault discards the whole record
(`None` returned, logged); otherwise the record is the mapping from
field names to resolved values. -/
def parse_element (e : Elem) (fields : List (String × FieldSpec)) :
    Option (List (String × PyVal)) :=
  match resolveFields e fields with
  | Except.ok vs => some vs
  | Except.error _ => none

/-- Python `str.capitalize()`: first character upper-cased, the rest
lower-cased. -/
def pyCapitalize (s : String) : String :=
  match s.data with
  | [] => ""
  | c :: rest => ⟨c.toUpper :: rest.map Char.toLower⟩

/-- Identity-key computation of `parse_common_section` for one card:
`link = (await card.query_selector("a")).get_attribute("href")` raises
`AttributeError` when the card has no anchor (the `None` returned by
`query_selector` has no `get_attribute`) or when `href` is `None` (the
`None` link has no `split`); then `link.split("/")[2]` (teammates) or
`link.split("/")[4]` (matchup) raises `IndexError` when the path has too
few segments; an unrecognised flag leaves `champ = None`. None of this
is inside a `try` in `parse_common_section`. -/
def champOf (flag : String) (c : Elem) : Except PyErr (Option String) :=
  match c.anchorHref with
  | none => Except.error PyErr.attributeError
  | some none => Except.error PyErr.attributeError
  | some (some link) =>
    if flag = "teammates" then
      match (pySplit link '/')[2]? with
      | some seg => Except.ok (some (pyCapitalize seg))
      | none => Except.error PyErr.indexError
    else if flag = "matchup" then
      match (pySplit link '/')[4]? with
      | some seg => Except.ok (some (pyCapitalize seg))
      | none => Except.error PyErr.indexError
    else
      Except.ok none

/-- The mutation `counter_fields['champion'] = (None, None, lambda _: champ)`:
the shared field table with the champion constant-spec bound at the end
(the key is absent from the site table, so the first assignment appends
it and later assignments overwrite it in place at that position). -/
def withChampion (fields : List (String × FieldSpec)) (champ : Option String) :
    List (String × FieldSpec) :=
  fields ++ [("champion", ⟨none, none, some (fun _ => Except.ok (optStrToVal champ))⟩)]

/-- Per-lane mutable state of `parse_common_section`: `seen_champions`
(a set, modelled as the list of keys in insertion-reversed order) and the
`counters` result list. -/
structure LaneState where
  seen : List (Option String)
  counters : List (Option (List (String × PyVal)))
deriving DecidableEq

/-- The body of `for card in cards:` in `parse_common_section`: compute
the identity key (faults propagate), skip the card when the key was
seen, otherwise record the key and append the mapped record —
unconditionally, whether or not the mapping returned `None`. -/
def stepCard (flag : String) (fields : List (String × FieldSpec))
    (st : LaneState) (c : Elem) : Except PyErr LaneState :=
  match champOf flag c with
  | Except.error e => Except.error e
  | Except.ok champ =>
    if champ ∈ st.seen then
      Except.ok st
    else
      Except.ok ⟨champ :: st.seen,
                 st.counters ++ [parse_element c (withChampion fields champ)]⟩

/-- Folding the card loop over one snapshot of visible cards. -/
def processCards (flag : String) (fields : List (String × FieldSpec))
    (st : LaneState) : List Elem → Except PyErr LaneState
  | [] => Except.ok st
  | c :: cs =>
    match stepCard flag fields st c with
    | Except.error e => Except.error e
    | Except.ok st2 => processCards flag fields st2 cs

/-- The scroll geometry of a lane's container as one `evaluate` call
observes it. -/
structure ScrollObs where
  scrollLeft : ℤ
  clientWidth : ℤ
  scrollWidth : ℤ
deriving DecidableEq

/-- The end-of-scroll check of `parse_common_section`:
`el.scrollLeft + el.clientWidth >= el.scrollWidth - 5`. -/
def exhausted (o : ScrollObs) : Bool :=
  o.scrollLeft + o.clientWidth ≥ o.scrollWidth - 5

/-- The `while True:` loop of `parse_common_section` for one lane, with
explicit fuel. Iteration `k` scrolls, snapshots the cards `cardsAt k`,
runs the card loop, then breaks iff `exhausted (obsAt k)`. The result is
`Except.error e` when an uncaught fault aborted the loop, `Except.ok
(some st)` when the loop broke via the scroll check within the given
fuel, and `Except.ok none` when the loop is still running after `fuel`
iterations (the code itself has no such bound: fuel only observes it). -/
def laneLoopAux (flag : String) (fields : List (String × FieldSpec))
    (cardsAt : ℕ → List Elem) (obsAt : ℕ → ScrollObs) :
    ℕ → ℕ → LaneState → Except PyErr (Option LaneState)
  | _, 0, _ => Except.ok none
  | k, fuel + 1, st =>
    match processCards flag fields st (cardsAt k) with
    | Except.error e => Except.error e
    | Except.ok st' =>
      if exhausted (obsAt k) then Except.ok (some st')
      else laneLoopAux flag fields cardsAt obsAt (k + 1) fuel st'

/-- One lane of `parse_common_section`: its label (the `alt` attribute of
the position icon) and the traces the page serves it. -/
structure LaneInput where
  label : Option String
  cardsAt : ℕ → List Elem
  obsAt : ℕ → ScrollObs

/-- The outer `for i in range(len(positions)):` loop of
`parse_common_section`: lanes run sequentially with fresh per-lane
state; a fault in any lane propagates and aborts the whole section. -/
def lanesRun (flag : String) (fields : List (String × FieldSpec))
    (fuel : ℕ) :
    List LaneInput →
    Except PyErr (Option (List (Option String × List (Option (List (String × PyVal))))))
  | [] => Except.ok (some [])
  | l :: ls =>
    match laneLoopAux flag fields l.cardsAt l.obsAt 0 fuel ⟨[], []⟩ with
    | Except.error e => Except.error e
    | Except.ok none => Except.ok none
    | Except.ok (some st) =>
      match lanesRun flag fields fuel ls with
      | Except.error e => Except.error e
      | Except.ok none => Except.ok none
      | Except.ok (some rest) => Except.ok (some ((l.label, st.counters) :: rest))

/-- Modelled from the spec: the Change Barrier primitive
(`page.wait_for_function` of the Playwright library, whose body is not
part of this repository). The spec contract is
`awaitChange(locator, previousText, timeout) -> void`, failing with a
`Timeout` condition if the text at the locator still equals
`previousText` after `timeout` elapses; the call site passes the
predicate `el.textContent.trim() !== oldCheck`. Time is abstracted to
poll ticks `0, 1, ..., timeout`; `textAt t` is the trimmed text observed
at tick `t`. -/
def awaitChange (textAt : ℕ → String) (previousText : String) (timeout : ℕ) :
    Except PyErr Unit :=
  if (List.range (timeout + 1)).any (fun t => textAt t ≠ previousText) then
    Except.ok ()
  else
    Except.error PyErr.timeoutError

/-- The tail of `LolalyticsParser.parse_champion_build` after the tab
click: the change barrier runs first; only if it succeeds does the
teammates extraction run; any raised condition is caught by the outer
`try` of `parse_champion_build`, which then returns `None` without
running the dependent extraction. The dependent extraction is abstracted
as the fallible computation `extractTeammates`. -/
def buildTail (A : Type) (textAt : ℕ → String) (oldCheck : String)
    (timeout : ℕ) (extractTeammates : Unit → Except PyErr A) : Option A :=
  match awaitChange textAt oldCheck timeout with
  | Except.error _ => none
  | Except.ok _ =>
    match extractTeammates () with
    | Except.ok a => some a
    | Except.error _ => none

/-- Python `int(s)` on a string: optional surrounding whitespace, an
optional sign, then at least one ASCII digit; otherwise `ValueError`,
modelled as `none`. -/
def pyInt (s : String) : Option ℤ :=
  match (pyStrip s).data with
  | '-' :: ds =>
    if ds ≠ [] ∧ ds.all Char.isDigit then some (-(digitsToNat ds : ℤ)) else none
  | '+' :: ds =>
    if ds ≠ [] ∧ ds.all Char.isDigit then some (digitsToNat ds : ℤ) else none
  | ds =>
    if ds ≠ [] ∧ ds.all Char.isDigit then some (digitsToNat ds : ℤ) else none

/-- `int(x) if x else None` for an XPath result entry that may be the
placeholder `None` or an empty string (both falsy); a `ValueError` from
`int` propagates to the surrounding `except`. -/
def pyTruthyInt (s : Option String) : Except PyErr (Option ℤ) :=
  match s with
  | none => Except.ok none
  | some str =>
    if str = "" then Except.ok none
    else
      match pyInt str with
      | some n => Except.ok (some n)
      | none => Except.error PyErr.valueError

/-- `OPGGParser._parse_win_loss`: guard empty or shorter-than-2 input;
then read indices 0 and 2 (index 2 raises `IndexError` on a 2-element
list) and convert both entries with `int` where truthy; the
`except (ValueError, IndexError)` clause turns either fault into
`(None, None)`. -/
def parseWinLoss (wl : List (Option String)) : Option ℤ × Option ℤ :=
  if wl = [] ∨ wl.length < 2 then (none, none)
  else
    match wl[0]?, wl[2]? with
    | some winsStr, some lossesStr =>
      (match pyTruthyInt winsStr, pyTruthyInt lossesStr with
       | Except.ok w, Except.ok l => (w, l)
       | _, _ => (none, none))
    | _, _ => (none, none)

/-- Specification-side characterization of the dedup pass: the ordered
list of (identity key, card) pairs at which a key is seen for the first
time, given an initial seen-set; faults of the key computation
propagate. Used only to state and compare properties of `processCards`,
which is the translation of the source loop. -/
def firstOccurrences (flag : String) (seen : List (Option String)) :
    List Elem → Except PyErr (List (Option String × Elem))
  | [] => Except.ok []
  | c :: cs =>
    match champOf flag c with
    | Except.error e => Except.error e
    | Except.ok k =>
      if k ∈ seen then
        firstOccurrences flag seen cs
      else
        match firstOccurrences flag (k :: seen) cs with
        | Except.error e => Except.error e
        | Except.ok rest => Except.ok ((k, c) :: rest)

/-- Specification-side rendering of the `number` extraction kind as the
spec words it: `null` when the text is absent, otherwise the
floating-point parse of the text reduced to its digit, `.` and `-`
characters, `null` when that residue is empty or unparsable. -/
def specNumber (t : Option String) : Option ℚ :=
  match t with
  | none => none
  | some txt =>
    let residue := cleanNumber txt
    if residue = "" then none else parseFloatResidue residue

/-! Concrete fixtures used by counterexamples and witnesses. -/

/-- An element with no matching sub-elements and no anchor. -/
def eEmpty : Elem := ⟨fun _ => none, none⟩

/-- A transform that is not idempotent: it appends an `X` marker on every
application, so one application to `None` gives `"X"` and two give
`"XX"`. -/
def tMark : PyVal → Except PyErr PyVal :=
  fun v => Except.ok (match v with
    | PyVal.vNone => PyVal.vStr "X"
    | PyVal.vStr s => PyVal.vStr (s ++ "X")
    | x => x)

/-- A transform that raises on every input. -/
def tRaise : PyVal → Except PyErr PyVal := fun _ => Except.error PyErr.valueError

/-- A matchup card whose identity key computes to `Darius`. -/
def cDarius : Elem := ⟨fun _ => none, some (some "/lol/aatrox/vs/darius/build/")⟩

/-- A matchup card whose identity key computes to `Aatrox`. -/
def cAatrox : Elem := ⟨fun _ => none, some (some "/lol/garen/vs/aatrox/build/")⟩

/-- A second card carrying the same identity key as `cDarius`. -/
def cDariusBis : Elem :=
  ⟨fun sel => if sel = "div" then some (some "other") else none,
   some (some "/lol/gnar/vs/darius/build/")⟩

/-- A card with no anchor element, whose identity key cannot be computed. -/
def cNoAnchor : Elem := ⟨fun _ => none, none⟩

/-- A field table whose only field always fails its transform, so the
field mapper discards every record. -/
def fieldsRaise : List (String × FieldSpec) :=
  [("wr", ⟨some "div", some "text", some tRaise⟩)]

/-- A lane whose first card snapshot contains the anchor-less card. -/
def laneBroken : LaneInput :=
  ⟨some "top", fun _ => [cNoAnchor], fun _ => ⟨900, 100, 1000⟩⟩

/-- A healthy lane that exhausts immediately. -/
def laneFine : LaneInput :=
  ⟨some "jungle", fun _ => [cAatrox], fun _ => ⟨900, 100, 1000⟩⟩

/-! Helper lemmas shared by the claim theorems. -/

theorem resolveField_null_selector (e : Elem)
    (vt : Option String) (t : PyVal → Except PyErr PyVal) :
    resolveField e ⟨none, vt, some t⟩ = (t PyVal.vNone).bind t := rfl

theorem parse_element_singleton (e : Elem) (name : String) (fs : FieldSpec) :
    parse_element e [(name, fs)] =
      match resolveField e fs with
      | Except.ok v => some [(name, v)]
      | Except.error _ => none := by
  unfold parse_element resolveFields
  cases h : resolveField e fs <;> rfl

theorem parse_element_none_of_field_error (e : Elem) :
    ∀ (fields : List (String × FieldSpec)) (name : String) (fs : FieldSpec)
      (err : PyErr), (name, fs) ∈ fields → resolveField e fs = Except.error err →
      parse_element e fields = none := by
  intro fields
  induction fields with
  | nil => intro name fs err h _; simp at h
  | cons hd tl ih =>
    intro name fs err hmem herr
    rcases List.mem_cons.mp hmem with heq | hmem'
    · subst heq
      unfold parse_element resolveFields
      have hr : resolveField e (name, fs).2 = Except.error err := herr
      rw [hr]
      rfl
    · unfold parse_element resolveFields
      cases h1 : resolveField e hd.2 with
      | error e1 => rfl
      | ok v1 =>
        have h2 := ih name fs err hmem' herr
        unfold parse_element at h2
        cases h3 : resolveFields e tl with
        | error e2 => rfl
        | ok vs => rw [h3] at h2; simp at h2

theorem stepCard_seen (flag : String) (fields : List (String × FieldSpec))
    (st : LaneState) (c : Elem) (key : Option String)
    (hk : champOf flag c = Except.ok key) (hmem : key ∈ st.seen) :
    stepCard flag fields st c = Except.ok st := by
  unfold stepCard
  rw [hk]
  dsimp only
  rw [if_pos hmem]

theorem stepCard_new (flag : String) (fields : List (String × FieldSpec))
    (st : LaneState) (c : Elem) (key : Option String)
    (hk : champOf flag c = Except.ok key) (hmem : key ∉ st.seen) :
    stepCard flag fields st c =
      Except.ok ⟨key :: st.seen,
                 st.counters ++ [parse_element c (withChampion fields key)]⟩ := by
  unfold stepCard
  rw [hk]
  dsimp only
  rw [if_neg hmem]

theorem stepCard_of_key_error (flag : String) (fields : List (String × FieldSpec))
    (st : LaneState) (c : Elem) (err : PyErr)
    (hk : champOf flag c = Except.error err) :
    stepCard flag fields st c = Except.error err := by
  unfold stepCard
  rw [hk]

theorem processCards_firstOccurrences (flag : String)
    (fields : List (String × FieldSpec)) :
    ∀ (cards : List Elem) (seen : List (Option String))
      (ctrs : List (Option (List (String × PyVal))))
      (hits : List (Option String × Elem)),
      firstOccurrences flag seen cards = Except.ok hits →
      processCards flag fields ⟨seen, ctrs⟩ cards =
        Except.ok ⟨(hits.map Prod.fst).reverse ++ seen,
                   ctrs ++ hits.map (fun p => parse_element p.2 (withChampion fields p.1))⟩ := by
  intro cards
  induction cards with
  | nil =>
    intro seen ctrs hits h
    unfold firstOccurrences at h
    cases h
    simp [processCards]
  | cons c cs ih =>
    intro seen ctrs hits h
    unfold firstOccurrences at h
    cases hk : champOf flag c with
    | error err => rw [hk] at h; cases h
    | ok key =>
      rw [hk] at h
      dsimp only at h
      unfold processCards
      by_cases hmem : key ∈ seen
      · rw [if_pos hmem] at h
        rw [stepCard_seen flag fields ⟨seen, ctrs⟩ c key hk hmem]
        dsimp only
        exact ih seen ctrs hits h
      · rw [if_neg hmem] at h
        rw [stepCard_new flag fields ⟨seen, ctrs⟩ c key hk hmem]
        dsimp only
        cases hrest : firstOccurrences flag (key :: seen) cs with
        | error e2 => rw [hrest] at h; cases h
        | ok rest =>
          rw [hrest] at h
          cases h
          have hrec := ih (key :: seen)
            (ctrs ++ [parse_element c (withChampion fields key)]) rest hrest
          rw [hrec]
          simp

theorem firstOccurrences_nodup (flag : String) :
    ∀ (cards : List Elem) (seen : List (Option String))
      (hits : List (Option String × Elem)),
      firstOccurrences flag seen cards = Except.ok hits →
      (∀ k ∈ hits.map Prod.fst, k ∉ seen) ∧ (hits.map Prod.fst).Nodup := by
  intro cards
  induction cards with
  | nil =>
    intro seen hits h
    unfold firstOccurrences at h
    cases h
    simp
  | cons c cs ih =>
    intro seen hits h
    unfold firstOccurrences at h
    cases hk : champOf flag c with
    | error err => rw [hk] at h; cases h
    | ok key =>
      rw [hk] at h
      dsimp only at h
      by_cases hmem : key ∈ seen
      · rw [if_pos hmem] at h
        exact ih seen hits h
      · rw [if_neg hmem] at h
        cases hrest : firstOccurrences flag (key :: seen) cs with
        | error e2 => rw [hrest] at h; cases h
        | ok rest =>
          rw [hrest] at h
          cases h
          obtain ⟨hfresh, hnd⟩ := ih (key :: seen) rest hrest
          constructor
          · intro k hkmem hkseen
            simp only [List.map_cons, List.mem_cons] at hkmem
            rcases hkmem with hkeq | hkmem'
            · exact hmem (hkeq ▸ hkseen)
            · exact hfresh k hkmem' (List.mem_cons_of_mem _ hkseen)
          · simp only [List.map_cons, List.nodup_cons]
            refine ⟨fun hkin => ?_, hnd⟩
            exact hfresh key hkin (List.mem_cons_self _ _)

theorem processCards_ok_of_keys (flag : String) (fields : List (String × FieldSpec)) :
    ∀ (cards : List Elem) (st : LaneState),
      (∀ c ∈ cards, ∃ key, champOf flag c = Except.ok key) →
      ∃ st2, processCards flag fields st cards = Except.ok st2 := by
  intro cards
  induction cards with
  | nil => intro st _; exact ⟨st, rfl⟩
  | cons c cs ih =>
    intro st hkeys
    obtain ⟨key, hk⟩ := hkeys c (List.mem_cons_self _ _)
    by_cases hmem : key ∈ st.seen
    · obtain ⟨st2, h2⟩ := ih st (fun c' hc' => hkeys c' (List.mem_cons_of_mem _ hc'))
      refine ⟨st2, ?_⟩
      unfold processCards
      rw [stepCard_seen flag fields st c key hk hmem]
      dsimp only
      exact h2
    · obtain ⟨st2, h2⟩ := ih
        ⟨key :: st.seen, st.counters ++ [parse_element c (withChampion fields key)]⟩
        (fun c' hc' => hkeys c' (List.mem_cons_of_mem _ hc'))
      refine ⟨st2, ?_⟩
      unfold processCards
      rw [stepCard_new flag fields st c key hk hmem]
      dsimp only
      exact h2

theorem laneLoopAux_ok_iff (flag : String) (fields : List (String × FieldSpec))
    (cardsAt : ℕ → List Elem) (obsAt : ℕ → ScrollObs)
    (hkeys : ∀ (k : ℕ), ∀ c ∈ cardsAt k, ∃ key, champOf flag c = Except.ok key) :
    ∀ (fuel k0 : ℕ) (st : LaneState),
      (∃ st2, laneLoopAux flag fields cardsAt obsAt k0 fuel st = Except.ok (some st2)) ↔
      (∃ j, j < fuel ∧ exhausted (obsAt (k0 + j)) = true) := by
  intro fuel
  induction fuel with
  | zero =>
    intro k0 st
    constructor
    · rintro ⟨st2, h⟩
      unfold laneLoopAux at h
      simp at h
    · rintro ⟨j, hj, _⟩
      omega
  | succ n ih =>
    intro k0 st
    obtain ⟨st1, h1⟩ := processCards_ok_of_keys flag fields (cardsAt k0) st (hkeys k0)
    unfold laneLoopAux
    rw [h1]
    dsimp only
    by_cases hex : exhausted (obsAt k0) = true
    · rw [if_pos hex]
      constructor
      · intro _
        exact ⟨0, Nat.succ_pos n, by simpa using hex⟩
      · intro _
        exact ⟨st1, rfl⟩
    · rw [if_neg hex]
      rw [ih (k0 + 1) st1]
      constructor
      · rintro ⟨j, hj, hexj⟩
        refine ⟨j + 1, by omega, ?_⟩
        have harith : k0 + (j + 1) = k0 + 1 + j := by omega
        rw [harith]
        exact hexj
      · rintro ⟨j, hj, hexj⟩
        cases j with
        | zero =>
          rw [Nat.add_zero] at hexj
          exact absurd hexj hex
        | succ m =>
          refine ⟨m, by omega, ?_⟩
          have harith : k0 + 1 + m = k0 + (m + 1) := by omega
          rw [harith]
          exact hexj

theorem laneLoopAux_never_exhausted (flag : String) (fields : List (String × FieldSpec))
    (cardsAt : ℕ → List Elem) (obsAt : ℕ → ScrollObs)
    (hkeys : ∀ (k : ℕ), ∀ c ∈ cardsAt k, ∃ key, champOf flag c = Except.ok key)
    (hnex : ∀ (k : ℕ), exhausted (obsAt k) = false) :
    ∀ (fuel k0 : ℕ) (st : LaneState),
      laneLoopAux flag fields cardsAt obsAt k0 fuel st = Except.ok none := by
  intro fuel
  induction fuel with
  | zero => intro k0 st; rfl
  | succ n ih =>
    intro k0 st
    obtain ⟨st1, h1⟩ := processCards_ok_of_keys flag fields (cardsAt k0) st (hkeys k0)
    unfold laneLoopAux
    rw [h1]
    dsimp only
    rw [if_neg (by simp [hnex k0])]
    exact ih (k0 + 1) st1

/-- A scroll observation that never satisfies the end-of-scroll check. -/
def obsStill : ScrollObs := ⟨0, 100, 1000⟩

/-- A scroll trace that is not exhausted at iteration 0 and exhausted
from iteration 1 on. -/
def obsSteps : ℕ → ScrollObs :=
  fun k => if k = 0 then ⟨0, 100, 1000⟩ else ⟨900, 100, 1000⟩

/-- A locator whose text never changes between polls. -/
def textStale : ℕ → String := fun _ => "10W 5L"

/-- The always-failing field spec used by several witnesses. -/
def fsRaise : FieldSpec := ⟨some "div", some "text", some tRaise⟩

/-! The claims. -/

/-- C1, counterexample: the paginated section extractor has no safety
bound. On a lane whose scroll container never reports exhaustion (offset
0, visible width 100, scroll width 1000, so the check
`scrollLeft + clientWidth >= scrollWidth - 5` is false forever) the loop
is still running after one million iterations, and its outcome space
contains no StuckPagination-like condition at all — contradicting the
claim that the loop stops after a fixed bound and reports
StuckPagination. -/
theorem c1_counterexample :
    laneLoopAux "matchup" [] (fun _ => []) (fun _ => obsStill) 0 1000000 ⟨[], []⟩ =
      Except.ok none :=
  laneLoopAux_never_exhausted "matchup" [] (fun _ => []) (fun _ => obsStill)
    (by intro k c hc; simp at hc) (fun _ => rfl) 1000000 0 ⟨[], []⟩

/-- C1, amended: the extraction loop of `parse_common_section` has no
iteration cap and no StuckPagination reporting. If the identity keys of
all served candidates compute and the scroll-exhaustion condition is
never satisfied, then after any number of iterations, starting anywhere,
the loop is still running — it never terminates and never reports any
condition. -/
theorem c1_no_safety_bound (flag : String) (fields : List (String × FieldSpec))
    (cardsAt : ℕ → List Elem) (obsAt : ℕ → ScrollObs)
    (hkeys : ∀ (k : ℕ), ∀ c ∈ cardsAt k, ∃ key, champOf flag c = Except.ok key)
    (hnex : ∀ (k : ℕ), exhausted (obsAt k) = false)
    (fuel k0 : ℕ) (st : LaneState) :
    laneLoopAux flag fields cardsAt obsAt k0 fuel st = Except.ok none :=
  laneLoopAux_never_exhausted flag fields cardsAt obsAt hkeys hnex fuel k0 st

/-- C1, witness for the amended theorem at a concrete never-exhausting
lane and fuel 7. -/
theorem c1_no_safety_bound_witness :
    laneLoopAux "teammates" [] (fun _ => []) (fun _ => obsStill) 0 7 ⟨[], []⟩ =
      Except.ok none :=
  c1_no_safety_bound "teammates" [] (fun _ => []) (fun _ => obsStill)
    (by intro k c hc; simp at hc) (fun _ => rfl) 7 0 ⟨[], []⟩

/-- C2, counterexample: with a `null` locator and the non-idempotent
transform `tMark` (which appends one `X` marker per application,
so `tMark(None) = "X"`), the field mapper produces `"XX"` — the
transform applied twice to `null` — not the `t(null) = "X"` the claim
states. -/
theorem c2_counterexample :
    parse_element eEmpty [("f", ⟨none, none, some tMark⟩)] =
        some [("f", PyVal.vStr "XX")] ∧
      tMark PyVal.vNone = Except.ok (PyVal.vStr "X") ∧
      some [("f", PyVal.vStr "XX")] ≠ some [("f", PyVal.vStr "X")] :=
  ⟨rfl, rfl, by decide⟩

/-- C2, amended: for a field spec with a `null` locator and a transform
`t`, `parse_element` sets the field to the transform applied twice to
`null` — `t(t(null))` — because the branch for a falsy locator already
applies the transform and the trailing `if transform:` applies it again;
a fault in either application discards the record. -/
theorem c2_double_transform (e : Elem) (name : String) (vt : Option String)
    (t : PyVal → Except PyErr PyVal) :
    parse_element e [(name, ⟨none, vt, some t⟩)] =
      match (t PyVal.vNone).bind t with
      | Except.ok v => some [(name, v)]
      | Except.error _ => none := by
  rw [parse_element_singleton, resolveField_null_selector]

/-- C3, counterexample: the extractor appends the mapping result without
any null check. With a field table whose only transform always raises,
the mapping of the (new-keyed) card `cDarius` returns `None`, and that
`None` appears in the lane's output sequence — contradicting the claim
that a null mapping result never appears there. -/
theorem c3_counterexample :
    processCards "matchup" fieldsRaise ⟨[], []⟩ [cDarius] =
      Except.ok ⟨[some "Darius"], [none]⟩ := rfl

/-- C3, amended: in `parse_common_section`, a candidate with a new
identity key has its Field-Mapper result appended to the lane's result
sequence unconditionally — in particular a `None` result is appended,
not dropped. -/
theorem c3_unconditional_append (flag : String)
    (fields : List (String × FieldSpec)) (st : LaneState) (c : Elem)
    (key : Option String) (hk : champOf flag c = Except.ok key)
    (hnew : key ∉ st.seen)
    (hnull : parse_element c (withChampion fields key) = none) :
    stepCard flag fields st c = Except.ok ⟨key :: st.seen, st.counters ++ [none]⟩ := by
  rw [stepCard_new flag fields st c key hk hnew, hnull]

/-- C3, witness for the amended theorem: the always-raising field table
on the fresh-keyed card `cDarius` appends the null record. -/
theorem c3_unconditional_append_witness :
    stepCard "matchup" fieldsRaise ⟨[], []⟩ cDarius =
      Except.ok ⟨[some "Darius"], [none]⟩ :=
  c3_unconditional_append "matchup" fieldsRaise ⟨[], []⟩ cDarius (some "Darius")
    rfl (by simp) rfl

/-- C4: dedup of the paginated section extractor. Whenever the dedup
trace of a card stream computes (every identity key resolves), the
lane's result, started from a fresh seen-set — as each lane and each
extractor call does — consists of exactly one mapped record per first
occurrence of an identity key, and those keys are pairwise distinct: no
identity key contributes two records. The extractor is a pure function
of the served stream, so re-running it over the same static stream
yields this same sequence again. -/
theorem c4_dedup_nodup (flag : String) (fields : List (String × FieldSpec))
    (cards : List Elem) (hits : List (Option String × Elem))
    (h : firstOccurrences flag [] cards = Except.ok hits) :
    processCards flag fields ⟨[], []⟩ cards =
        Except.ok ⟨(hits.map Prod.fst).reverse,
                   hits.map (fun p => parse_element p.2 (withChampion fields p.1))⟩ ∧
      (hits.map Prod.fst).Nodup := by
  have h1 := processCards_firstOccurrences flag fields cards [] [] hits h
  simp only [List.append_nil, List.nil_append] at h1
  exact ⟨h1, (firstOccurrences_nodup flag cards [] hits h).2⟩

/-- C4, witness: the overlapping stream `[cAatrox, cDarius, cDariusBis]`
(the last card repeats the key `Darius`) yields one record per distinct
key, keys nodup. -/
theorem c4_dedup_nodup_witness :
    processCards "matchup" fieldsRaise ⟨[], []⟩ [cAatrox, cDarius, cDariusBis] =
        Except.ok ⟨([(some "Aatrox", cAatrox), (some "Darius", cDarius)].map Prod.fst).reverse,
                   [(some "Aatrox", cAatrox), (some "Darius", cDarius)].map
                     (fun p => parse_element p.2 (withChampion fieldsRaise p.1))⟩ ∧
      ([(some "Aatrox", cAatrox), (some "Darius", cDarius)].map
        (Prod.fst (β := Elem))).Nodup :=
  c4_dedup_nodup "matchup" fieldsRaise [cAatrox, cDarius, cDariusBis]
    [(some "Aatrox", cAatrox), (some "Darius", cDarius)] rfl

/-- C5: the extraction loop for a lane terminates (breaks via the scroll
check) exactly when some iteration ends with the lane's scroll state
satisfying `offset + visibleWidth >= scrollWidth - 5`, the tolerance
being the fixed constant 5 — provided no candidate faults the loop (key
faults abort it by exception, which is termination by failure, not the
loop's own exit). Stated over every fuel bound: the loop has broken
within `fuel` iterations iff the condition held at the end of one of
them. -/
theorem c5_termination_iff_exhausted (flag : String)
    (fields : List (String × FieldSpec)) (cardsAt : ℕ → List Elem)
    (obsAt : ℕ → ScrollObs) (fuel : ℕ)
    (hkeys : ∀ (k : ℕ), ∀ c ∈ cardsAt k, ∃ key, champOf flag c = Except.ok key) :
    ((∃ st2, laneLoopAux flag fields cardsAt obsAt 0 fuel ⟨[], []⟩ =
        Except.ok (some st2)) ↔
      (∃ j, j < fuel ∧ exhausted (obsAt j) = true)) ∧
    (∀ o : ScrollObs, exhausted o = true ↔
      o.scrollLeft + o.clientWidth ≥ o.scrollWidth - 5) := by
  constructor
  · have h := laneLoopAux_ok_iff flag fields cardsAt obsAt hkeys fuel 0 ⟨[], []⟩
    simpa using h
  · intro o
    simp [exhausted]

/-- C5, witness: a lane serving no cards, not exhausted at iteration 0
and exhausted at iteration 1, with fuel 3: the loop terminates and the
scroll condition was indeed reached. -/
theorem c5_termination_iff_exhausted_witness :
    ((∃ st2, laneLoopAux "matchup" [] (fun _ => []) obsSteps 0 3 ⟨[], []⟩ =
        Except.ok (some st2)) ↔
      (∃ j, j < 3 ∧ exhausted (obsSteps j) = true)) ∧
    (∀ o : ScrollObs, exhausted o = true ↔
      o.scrollLeft + o.clientWidth ≥ o.scrollWidth - 5) :=
  c5_termination_iff_exhausted "matchup" [] (fun _ => []) obsSteps 3
    (by intro k c hc; simp at hc)

/-- C6, counterexample: a candidate with no anchor makes the identity-key
computation raise `AttributeError`; the fault is not caught inside
`parse_common_section`, so the whole card loop aborts (the following
card `cAatrox` is never processed) and, at the section level, the whole
multi-lane run aborts (the healthy second lane is never extracted) —
contradicting the claim that such a candidate is skipped and processing
continues. -/
theorem c6_counterexample :
    processCards "matchup" [] ⟨[], []⟩ [cNoAnchor, cAatrox] =
        Except.error PyErr.attributeError ∧
      lanesRun "matchup" [] 3 [laneBroken, laneFine] =
        Except.error PyErr.attributeError := ⟨rfl, rfl⟩

/-- C6, amended: a candidate whose identity key cannot be computed makes
the extractor raise: the fault propagates out of the card loop (the
remaining candidates are not processed) and out of the lane loop, and a
faulting lane aborts the whole section including all remaining lanes;
only the site parser's outer handler catches it. -/
theorem c6_key_fault_aborts_section :
    (∀ (flag : String) (fields : List (String × FieldSpec)) (st : LaneState)
       (c : Elem) (cs : List Elem) (err : PyErr),
       champOf flag c = Except.error err →
       processCards flag fields st (c :: cs) = Except.error err) ∧
    (∀ (flag : String) (fields : List (String × FieldSpec)) (fuel : ℕ)
       (l : LaneInput) (ls : List LaneInput) (err : PyErr),
       laneLoopAux flag fields l.cardsAt l.obsAt 0 fuel ⟨[], []⟩ =
         Except.error err →
       lanesRun flag fields fuel (l :: ls) = Except.error err) := by
  constructor
  · intro flag fields st c cs err hk
    unfold processCards
    rw [stepCard_of_key_error flag fields st c err hk]
  · intro flag fields fuel l ls err h
    unfold lanesRun
    rw [h]

/-- C6, witness for the amended theorem on the concrete anchor-less card
and the concrete broken lane. -/
theorem c6_key_fault_aborts_section_witness :
    processCards "matchup" [] ⟨[], []⟩ [cNoAnchor] =
        Except.error PyErr.attributeError ∧
      lanesRun "matchup" [] 1 [laneBroken] = Except.error PyErr.attributeError :=
  ⟨c6_key_fault_aborts_section.1 "matchup" [] ⟨[], []⟩ cNoAnchor [] PyErr.attributeError rfl,
   c6_key_fault_aborts_section.2 "matchup" [] 1 laneBroken [] PyErr.attributeError rfl⟩

/-- C7: the field mapper absorbs faults. First conjunct: if resolving
any field of the table faults (in particular, if its transform raises on
its input), `parse_element` returns `None` — the whole record is
discarded and no partial record is returned (its result type returns
either a complete record or `None`, never an exception). Second
conjunct: a card whose identity key computes never aborts the lane loop,
whatever the mapping result — so the cards after a discarded record are
still processed. -/
theorem c7_record_discard_total :
    (∀ (e : Elem) (fields : List (String × FieldSpec)) (name : String)
       (fs : FieldSpec) (err : PyErr),
       (name, fs) ∈ fields → resolveField e fs = Except.error err →
       parse_element e fields = none) ∧
    (∀ (flag : String) (fields : List (String × FieldSpec)) (st : LaneState)
       (c : Elem) (key : Option String),
       champOf flag c = Except.ok key →
       ∃ st2, stepCard flag fields st c = Except.ok st2) := by
  constructor
  · exact fun e fields name fs err hmem herr =>
      parse_element_none_of_field_error e fields name fs err hmem herr
  · intro flag fields st c key hk
    by_cases hmem : key ∈ st.seen
    · exact ⟨st, stepCard_seen flag fields st c key hk hmem⟩
    · exact ⟨_, stepCard_new flag fields st c key hk hmem⟩

/-- C7, witness: the always-raising transform discards the whole record
of `cDarius`, and the same card still steps the lane loop successfully. -/
theorem c7_record_discard_total_witness :
    parse_element cDarius fieldsRaise = none ∧
      ∃ st2, stepCard "matchup" fieldsRaise ⟨[], []⟩ cDarius = Except.ok st2 :=
  ⟨c7_record_discard_total.1 cDarius fieldsRaise "wr" fsRaise PyErr.valueError
      (by unfold fieldsRaise fsRaise; exact List.mem_cons_self _ _) rfl,
   c7_record_discard_total.2 "matchup" fieldsRaise ⟨[], []⟩ cDarius (some "Darius") rfl⟩

/-- C8: if the text at the watched locator still equals the previous
snapshot at every poll up to the timeout, the change barrier fails with
the `Timeout` condition, and the dependent teammates extraction is not
run: the result of the build tail is `None` for every possible
extraction computation, i.e. independent of it. -/
theorem c8_change_barrier_timeout (textAt : ℕ → String) (previousText : String)
    (timeout : ℕ) (h : ∀ t ≤ timeout, textAt t = previousText) :
    awaitChange textAt previousText timeout = Except.error PyErr.timeoutError ∧
    ∀ (A : Type) (f : Unit → Except PyErr A),
      buildTail A textAt previousText timeout f = none := by
  have hbar : awaitChange textAt previousText timeout =
      Except.error PyErr.timeoutError := by
    unfold awaitChange
    rw [if_neg]
    simp only [List.any_eq_true, List.mem_range, not_exists]
    intro t
    rw [not_and]
    intro ht
    simp [h t (Nat.lt_succ_iff.mp ht)]
  refine ⟨hbar, ?_⟩
  intro A f
  unfold buildTail
  rw [hbar]

/-- C8, witness: the scenario of the spec — previous text `10W 5L`, a
locator whose text never changes, timeout 1000 — raises `Timeout` and
the dependent extraction never runs. -/
theorem c8_change_barrier_timeout_witness :
    awaitChange textStale "10W 5L" 1000 = Except.error PyErr.timeoutError ∧
      buildTail Unit textStale "10W 5L" 1000 (fun _ => Except.ok ()) = none :=
  ⟨(c8_change_barrier_timeout textStale "10W 5L" 1000 (fun _ _ => rfl)).1,
   (c8_change_barrier_timeout textStale "10W 5L" 1000 (fun _ _ => rfl)).2
     Unit (fun _ => Except.ok ())⟩

/-- C9: for every selector, `extract_number` behaves exactly as the spec
words it — `null` when the element's text is absent, otherwise the
floating-point parse of the text reduced to its digit, `.` and `-`
characters, with `null` (a value, never a raised fault: the return type
is an option) when the residue is empty or unparsable. The only textual
difference between the two sides — the code's Python truthiness check on
the raw text — is unobservable, because an empty text has an empty
residue. -/
theorem c9_extract_number_spec (e : Elem) (sel : String) :
    extract_number e sel = specNumber (extract_text e sel) := by
  unfold extract_number specNumber
  cases h : extract_text e sel with
  | none => rfl
  | some t =>
    by_cases ht : t = ""
    · subst ht; rfl
    · dsimp only
      rw [if_neg ht]

/-- C10: the OP.GG win/loss parser is total by construction (it returns
a plain pair; the explicit guard handles lists shorter than 2, and the
`except (ValueError, IndexError)` clause absorbs the remaining faults)
and returns `(None, None)` on every list of fewer than three elements —
including a two-element list, which passes the `len < 2` guard but makes
the read of index 2 raise `IndexError`, absorbed into `(None, None)`. -/
theorem c10_win_loss_short_list (wl : List (Option String))
    (h : wl.length < 3) : parseWinLoss wl = (none, none) := by
  unfold parseWinLoss
  by_cases h2 : wl = [] ∨ wl.length < 2
  · rw [if_pos h2]
  · rw [if_neg h2]
    have h22 : wl[2]? = none := by
      rw [List.getElem?_eq_none_iff]
      omega
    rw [h22]
    cases h0 : wl[0]? <;> rfl

/-- C10, witness: the two-element list `["10", "W"]` passes the length
guard yet yields `(None, None)` via the caught `IndexError`. -/
theorem c10_win_loss_short_list_witness :
    parseWinLoss [some "10", some "W"] = (none, none) :=
  c10_win_loss_short_list [some "10", some "W"] (by decide)
